import Mathlib

/-!
Verification of the response-decoding layer of the go-fcm library
(`response.go`): the error-code classification table, the retry-metadata
flags of `connectionError` and `serverError`, the `Result` and `Response`
JSON unmarshalers, and the `Result.Unregistered` predicate.

JSON inputs are modelled as already-parsed `Json` trees; the
`encoding/json` behaviour on the two anonymous wire structs (unknown keys
ignored, `null` leaving the target untouched, last duplicate key winning,
a wrong JSON type producing an unmarshal error, `int`/`int64` overflow
checked) is embedded explicitly.
-/

namespace Fcm

/-- The distinct error values declared in `response.go`: thirteen
`errors.New` values, `ErrUnavailable : connectionError`,
`ErrInternalServerError : serverError`, and the catch-all `ErrUnknown`. -/
inductive FcmError where
  | missingRegistration
  | invalidRegistration
  | notRegistered
  | invalidPackageName
  | mismatchSenderID
  | messageTooBig
  | invalidDataKey
  | invalidTTL
  | unavailable
  | internalServerError
  | deviceMessageRateExceeded
  | topicsMessageRateExceeded
  | invalidParameters
  | unknown
  | invalidApnsCredential
  deriving DecidableEq, Repr

/-- The `errMap` table of `response.go`, in source order. -/
def errMap : List (String × FcmError) :=
  [("MissingRegistration", FcmError.missingRegistration),
   ("InvalidRegistration", FcmError.invalidRegistration),
   ("NotRegistered", FcmError.notRegistered),
   ("InvalidPackageName", FcmError.invalidPackageName),
   ("MismatchSenderId", FcmError.mismatchSenderID),
   ("MessageTooBig", FcmError.messageTooBig),
   ("InvalidDataKey", FcmError.invalidDataKey),
   ("InvalidTtl", FcmError.invalidTTL),
   ("Unavailable", FcmError.unavailable),
   ("InternalServerError", FcmError.internalServerError),
   ("DeviceMessageRateExceeded", FcmError.deviceMessageRateExceeded),
   ("TopicsMessageRateExceeded", FcmError.topicsMessageRateExceeded),
   ("InvalidParameters", FcmError.invalidParameters),
   ("InvalidApnsCredential", FcmError.invalidApnsCredential)]

/-- The classification step both unmarshalers apply to a non-empty error
string: `if val, ok := errMap[s]; ok { val } else { ErrUnknown }`. -/
def classifyError (code : String) : FcmError :=
  match errMap.lookup code with
  | some e => e
  | none => FcmError.unknown

/-- The `Temporary()` method: `true` on `connectionError` (`ErrUnavailable`)
and on `serverError` (`ErrInternalServerError`); every other error value
has no such method, so it carries no temporary flag. -/
def errTemporary : FcmError → Bool
  | FcmError.unavailable => true
  | FcmError.internalServerError => true
  | _ => false

/-- The `Timeout()` method: `true` on `connectionError` (`ErrUnavailable`),
`false` on `serverError` (`ErrInternalServerError`); every other error
value has no such method, so it carries no timeout flag. -/
def errTimeout : FcmError → Bool
  | FcmError.unavailable => true
  | _ => false

/-- A parsed JSON value. Numbers are modelled as integers, which covers
every numeric field of the wire format (`multicast_id`, `message_id`,
`success`, `failure`, `canonical_ids` are all integral). -/
inductive Json where
  | null
  | bool (b : Bool)
  | num (n : Int)
  | str (s : String)
  | arr (elems : List Json)
  | obj (fields : List (String × Json))
  deriving Repr

/-- An unmarshal error: `encoding/json` reports a wrong JSON value type
for a field (including an integer overflowing the target type) as an
`UnmarshalTypeError`. -/
inductive DecodeErr where
  | typeMismatch (expected : String)
  deriving DecidableEq, Repr

/-- Decoding a JSON value into a Go `string` field holding `cur`: a JSON
string replaces it, `null` leaves it untouched, anything else is an
`UnmarshalTypeError`. -/
def decodeStringField (cur : String) : Json → Except DecodeErr String
  | Json.null => Except.ok cur
  | Json.str s => Except.ok s
  | _ => Except.error (DecodeErr.typeMismatch "string")

/-- Whether an integer fits the Go `int64` type (and `int` on a 64-bit platform). -/
def int64InRange (n : Int) : Bool :=
  decide (-(2 ^ 63) ≤ n) && decide (n < 2 ^ 63)

/-- Decoding a JSON value into a Go `int64`/`int` field holding `cur`:
a JSON number in range replaces it, `null` leaves it untouched, anything
else (wrong type or overflow) is an `UnmarshalTypeError`. -/
def decodeIntField (cur : Int) : Json → Except DecodeErr Int
  | Json.null => Except.ok cur
  | Json.num n =>
    if int64InRange n then Except.ok n
    else Except.error (DecodeErr.typeMismatch "int64")
  | _ => Except.error (DecodeErr.typeMismatch "number")

/-- The wire form of one element of the `results` array: the anonymous
struct inside `Result.UnmarshalJSON`, all three fields plain strings. -/
structure RawResult where
  messageID : String
  registrationID : String
  error : String
  deriving DecidableEq, Repr

/-- Field-by-field decoding of a JSON object into the anonymous struct of
`Result.UnmarshalJSON`: keys matched against the three json tags, unknown
keys ignored, later duplicates overwriting earlier ones. -/
def rawResultFields (acc : RawResult) : List (String × Json) → Except DecodeErr RawResult
  | [] => Except.ok acc
  | (k, v) :: rest =>
    if k = "message_id" then
      match decodeStringField acc.messageID v with
      | Except.error e => Except.error e
      | Except.ok s => rawResultFields { acc with messageID := s } rest
    else if k = "registration_id" then
      match decodeStringField acc.registrationID v with
      | Except.error e => Except.error e
      | Except.ok s => rawResultFields { acc with registrationID := s } rest
    else if k = "error" then
      match decodeStringField acc.error v with
      | Except.error e => Except.error e
      | Except.ok s => rawResultFields { acc with error := s } rest
    else rawResultFields acc rest

/-- The `json.Unmarshal(data, &result)` call of `Result.UnmarshalJSON`:
the target must be a JSON object (`null` is a no-op), starting from the
zeroed local struct. -/
def decodeRawResult : Json → Except DecodeErr RawResult
  | Json.null => Except.ok ⟨"", "", ""⟩
  | Json.obj kvs => rawResultFields ⟨"", "", ""⟩ kvs
  | _ => Except.error (DecodeErr.typeMismatch "object")

/-- The public `Result` struct: `Error` is an `error` interface value,
`nil` when unset, hence an `Option`. -/
structure Result where
  messageID : String
  registrationID : String
  error : Option FcmError
  deriving DecidableEq, Repr

/-- The zero `Result` a fresh slice element starts from. -/
def Result.zero : Result := ⟨"", "", none⟩

/-- `Result.UnmarshalJSON`: decode the wire struct; on error return it
with the receiver `r` untouched; otherwise copy the string fields and
classify the error code only when it is non-empty (an empty code leaves
`r.Error` as it was). -/
def resultUnmarshalJSON (r : Result) (data : Json) : Result × Option DecodeErr :=
  match decodeRawResult data with
  | Except.error e => (r, some e)
  | Except.ok raw =>
    ({ messageID := raw.messageID,
       registrationID := raw.registrationID,
       error := if raw.error ≠ "" then some (classifyError raw.error) else r.error }, none)

/-- Decoding one element of a `[]Result` slice: `encoding/json` calls
`Result.UnmarshalJSON` on a freshly zeroed element and aborts on error. -/
def decodeResult (data : Json) : Except DecodeErr Result :=
  match resultUnmarshalJSON Result.zero data with
  | (r, none) => Except.ok r
  | (_, some e) => Except.error e

/-- Element-wise decoding of the `results` JSON array, in order, aborting
at the first failing element. -/
def decodeResultList : List Json → Except DecodeErr (List Result)
  | [] => Except.ok []
  | x :: xs =>
    match decodeResult x with
    | Except.error e => Except.error e
    | Except.ok r =>
      match decodeResultList xs with
      | Except.error e => Except.error e
      | Except.ok rs => Except.ok (r :: rs)

/-- Decoding one element of a `[]string` slice: a JSON string, or `null`
leaving the zeroed element as `""`. -/
def decodeStringElem : Json → Except DecodeErr String
  | Json.null => Except.ok ""
  | Json.str s => Except.ok s
  | _ => Except.error (DecodeErr.typeMismatch "string")

/-- Element-wise decoding of the `failed_registration_ids` JSON array. -/
def decodeStringList : List Json → Except DecodeErr (List String)
  | [] => Except.ok []
  | x :: xs =>
    match decodeStringElem x with
    | Except.error e => Except.error e
    | Except.ok s =>
      match decodeStringList xs with
      | Except.error e => Except.error e
      | Except.ok ss => Except.ok (s :: ss)

/-- The wire form of a response: the anonymous struct inside
`Response.UnmarshalJSON`, whose `Error` field is a plain string. A Go
slice field distinguishes `nil` (`none`) from a decoded array (`some`). -/
structure RawResponse where
  multicastID : Int
  success : Int
  failure : Int
  canonicalIDs : Int
  results : Option (List Result)
  failedRegistrationIDs : Option (List String)
  messageID : Int
  error : String
  deriving DecidableEq, Repr

/-- The zeroed anonymous response struct. -/
def RawResponse.zero : RawResponse := ⟨0, 0, 0, 0, none, none, 0, ""⟩

/-- Field-by-field decoding of a JSON object into the anonymous struct of
`Response.UnmarshalJSON`: keys matched against the eight json tags,
unknown keys ignored, later duplicates overwriting earlier ones, array
fields decoded element-wise and `null` arrays left `nil`. -/
def rawResponseFields (acc : RawResponse) : List (String × Json) → Except DecodeErr RawResponse
  | [] => Except.ok acc
  | (k, v) :: rest =>
    if k = "multicast_id" then
      match decodeIntField acc.multicastID v with
      | Except.error e => Except.error e
      | Except.ok n => rawResponseFields { acc with multicastID := n } rest
    else if k = "success" then
      match decodeIntField acc.success v with
      | Except.error e => Except.error e
      | Except.ok n => rawResponseFields { acc with success := n } rest
    else if k = "failure" then
      match decodeIntField acc.failure v with
      | Except.error e => Except.error e
      | Except.ok n => rawResponseFields { acc with failure := n } rest
    else if k = "canonical_ids" then
      match decodeIntField acc.canonicalIDs v with
      | Except.error e => Except.error e
      | Except.ok n => rawResponseFields { acc with canonicalIDs := n } rest
    else if k = "results" then
      match v with
      | Json.null => rawResponseFields acc rest
      | Json.arr xs =>
        match decodeResultList xs with
        | Except.error e => Except.error e
        | Except.ok rs => rawResponseFields { acc with results := some rs } rest
      | _ => Except.error (DecodeErr.typeMismatch "array")
    else if k = "failed_registration_ids" then
      match v with
      | Json.null => rawResponseFields acc rest
      | Json.arr xs =>
        match decodeStringList xs with
        | Except.error e => Except.error e
        | Except.ok ss => rawResponseFields { acc with failedRegistrationIDs := some ss } rest
      | _ => Except.error (DecodeErr.typeMismatch "array")
    else if k = "message_id" then
      match decodeIntField acc.messageID v with
      | Except.error e => Except.error e
      | Except.ok n => rawResponseFields { acc with messageID := n } rest
    else if k = "error" then
      match decodeStringField acc.error v with
      | Except.error e => Except.error e
      | Except.ok s => rawResponseFields { acc with error := s } rest
    else rawResponseFields acc rest

/-- The `json.Unmarshal(data, &response)` call of `Response.UnmarshalJSON`:
the target must be a JSON object (`null` is a no-op), starting from the
zeroed local struct. -/
def decodeRawResponse : Json → Except DecodeErr RawResponse
  | Json.null => Except.ok RawResponse.zero
  | Json.obj kvs => rawResponseFields RawResponse.zero kvs
  | _ => Except.error (DecodeErr.typeMismatch "object")

/-- The public `Response` struct: `Error` is an `error` interface value,
`nil` when unset, hence an `Option`. -/
structure Response where
  multicastID : Int
  success : Int
  failure : Int
  canonicalIDs : Int
  results : Option (List Result)
  failedRegistrationIDs : Option (List String)
  messageID : Int
  error : Option FcmError
  deriving DecidableEq, Repr

/-- The zero `Response` an unmarshal normally starts from. -/
def Response.zero : Response := ⟨0, 0, 0, 0, none, none, 0, none⟩

/-- `Response.UnmarshalJSON`: decode the wire struct; on error return it
with the receiver `r` untouched; otherwise copy every field and classify
the top-level error code only when it is non-empty (an empty code leaves
`r.Error` as it was). -/
def responseUnmarshalJSON (r : Response) (data : Json) : Response × Option DecodeErr :=
  match decodeRawResponse data with
  | Except.error e => (r, some e)
  | Except.ok raw =>
    ({ multicastID := raw.multicastID,
       success := raw.success,
       failure := raw.failure,
       canonicalIDs := raw.canonicalIDs,
       results := raw.results,
       failedRegistrationIDs := raw.failedRegistrationIDs,
       messageID := raw.messageID,
       error := if raw.error ≠ "" then some (classifyError raw.error) else r.error }, none)

/-- `Result.Unregistered`: a `switch` on the stored error value against
the four unregistered-device errors. -/
def Result.unregistered (r : Result) : Bool :=
  match r.error with
  | some FcmError.notRegistered => true
  | some FcmError.mismatchSenderID => true
  | some FcmError.missingRegistration => true
  | some FcmError.invalidRegistration => true
  | _ => false

/-- Whether any multicast-send field of a decoded Response is populated: a nonzero multicast id or count, or a present results or failed-registration-ids slice. -/
def multicastPopulated (r : Response) : Bool :=
  (r.multicastID != 0) || (r.success != 0) || (r.failure != 0) || (r.canonicalIDs != 0) ||
  r.results.isSome || r.failedRegistrationIDs.isSome

/-- Whether any topic-send field of a decoded Response is populated: a nonzero message id or a present error. -/
def topicPopulated (r : Response) : Bool :=
  (r.messageID != 0) || r.error.isSome

/-- Whether a JSON key belongs to the multicast/device-group field group. -/
def multicastKey (k : String) : Bool :=
  (k == "multicast_id") || (k == "success") || (k == "failure") || (k == "canonical_ids") ||
  (k == "results") || (k == "failed_registration_ids")

/-- Whether a JSON key belongs to the topic field group. -/
def topicKey (k : String) : Bool :=
  (k == "message_id") || (k == "error")

/-- Whether a JSON value carries the type expected for a Go string field: a string, or null. -/
def strOrNull : Json → Bool
  | Json.null => true
  | Json.str _ => true
  | _ => false

/-- Whether a JSON value carries the type expected for a Go int64 field: an in-range number, or null. -/
def intOrNull : Json → Bool
  | Json.null => true
  | Json.num n => int64InRange n
  | _ => false

/-- Whether one key-value entry of a result object carries the JSON type the result decoder expects for that key; unknown keys are unconstrained. -/
def wellTypedResultField : String × Json → Bool := fun kv =>
  if kv.1 = "message_id" ∨ kv.1 = "registration_id" ∨ kv.1 = "error" then strOrNull kv.2
  else true

/-- Whether a JSON value has the field types the result decoder expects: an object (or null) whose known keys hold strings. -/
def wellTypedResult : Json → Bool
  | Json.null => true
  | Json.obj kvs => kvs.all wellTypedResultField
  | _ => false

/-- Whether one key-value entry of a response object carries the JSON type the response decoder expects for that key; unknown keys are unconstrained. -/
def wellTypedResponseField : String × Json → Bool := fun kv =>
  if kv.1 = "multicast_id" ∨ kv.1 = "success" ∨ kv.1 = "failure" ∨ kv.1 = "canonical_ids" ∨
      kv.1 = "message_id" then intOrNull kv.2
  else if kv.1 = "results" then
    match kv.2 with
    | Json.null => true
    | Json.arr xs => xs.all wellTypedResult
    | _ => false
  else if kv.1 = "failed_registration_ids" then
    match kv.2 with
    | Json.null => true
    | Json.arr xs => xs.all strOrNull
    | _ => false
  else if kv.1 = "error" then strOrNull kv.2
  else true

/-- Whether a JSON value has the field types the response decoder expects: an object (or null) whose known keys hold values of the declared field types, element-wise for the two array fields. -/
def wellTypedResponse : Json → Bool
  | Json.null => true
  | Json.obj kvs => kvs.all wellTypedResponseField
  | _ => false

/-- A lookup over an association list misses when the key is bound to no value in it. -/
theorem lookup_eq_none_of_not_key (s : String) :
    ∀ l : List (String × FcmError), (∀ k, (s, k) ∉ l) → l.lookup s = none := by
  intro l
  induction l with
  | nil => intro _; rfl
  | cons p rest ih =>
    intro h
    obtain ⟨k0, v0⟩ := p
    have hne : s ≠ k0 := by
      intro he
      exact h v0 (by simp [he])
    have hbeq : (s == k0) = false := beq_eq_false_iff_ne.mpr hne
    simp only [List.lookup, hbeq]
    exact ih (fun k hk => h k (List.mem_cons_of_mem _ hk))

/-- A successful element-wise decode of a results array preserves length and decodes index for index. -/
theorem decodeResultList_pointwise :
    ∀ (xs : List Json) (rs : List Result), decodeResultList xs = Except.ok rs →
      rs.length = xs.length ∧
      ∀ i (h1 : i < xs.length) (h2 : i < rs.length),
        decodeResult (xs.get ⟨i, h1⟩) = Except.ok (rs.get ⟨i, h2⟩) := by
  intro xs
  induction xs with
  | nil =>
    intro rs h
    simp only [decodeResultList] at h
    cases h
    exact ⟨rfl, fun i h1 _ => absurd h1 (Nat.not_lt_zero i)⟩
  | cons x xs ih =>
    intro rs h
    simp only [decodeResultList] at h
    cases hx : decodeResult x with
    | error e => rw [hx] at h; cases h
    | ok r =>
      rw [hx] at h
      cases ht : decodeResultList xs with
      | error e => rw [ht] at h; cases h
      | ok rs0 =>
        rw [ht] at h
        cases h
        obtain ⟨hlen, hget⟩ := ih rs0 ht
        refine ⟨by simp [hlen], ?_⟩
        intro i h1 h2
        cases i with
        | zero => simpa using hx
        | succ n => exact hget n (Nat.lt_of_succ_lt_succ h1) (Nat.lt_of_succ_lt_succ h2)

/-- The wire error string of a decoded result struct stays empty when every error entry of the object is the empty string. -/
theorem rawResultFields_error_blank :
    ∀ (kvs : List (String × Json)) (acc raw : RawResult),
      (∀ v, ("error", v) ∈ kvs → v = Json.str "") →
      acc.error = "" →
      rawResultFields acc kvs = Except.ok raw →
      raw.error = "" := by
  intro kvs
  induction kvs with
  | nil =>
    intro acc raw _ hacc h
    simp only [rawResultFields] at h
    cases h
    exact hacc
  | cons p rest ih =>
    intro acc raw hblank hacc h
    obtain ⟨k, v⟩ := p
    have hrest : ∀ w, ("error", w) ∈ rest → w = Json.str "" :=
      fun w hw => hblank w (List.mem_cons_of_mem _ hw)
    simp only [rawResultFields] at h
    by_cases c1 : k = "message_id"
    · rw [if_pos c1] at h
      cases hd : decodeStringField acc.messageID v with
      | error e => rw [hd] at h; cases h
      | ok s => rw [hd] at h; exact ih { acc with messageID := s } raw hrest hacc h
    · rw [if_neg c1] at h
      by_cases c2 : k = "registration_id"
      · rw [if_pos c2] at h
        cases hd : decodeStringField acc.registrationID v with
        | error e => rw [hd] at h; cases h
        | ok s => rw [hd] at h; exact ih { acc with registrationID := s } raw hrest hacc h
      · rw [if_neg c2] at h
        by_cases c3 : k = "error"
        · rw [if_pos c3] at h
          have hv : v = Json.str "" := hblank v (by rw [c3]; exact List.mem_cons_self _ _)
          subst hv
          simp only [decodeStringField] at h
          exact ih { acc with error := "" } raw hrest rfl h
        · rw [if_neg c3] at h
          exact ih _ _ hrest hacc h

/-- The wire error string of a decoded response struct stays empty when every error entry of the object is the empty string. -/
theorem rawResponseFields_error_blank :
    ∀ (kvs : List (String × Json)) (acc raw : RawResponse),
      (∀ v, ("error", v) ∈ kvs → v = Json.str "") →
      acc.error = "" →
      rawResponseFields acc kvs = Except.ok raw →
      raw.error = "" := by
  intro kvs
  induction kvs with
  | nil =>
    intro acc raw _ hacc h
    simp only [rawResponseFields] at h
    cases h
    exact hacc
  | cons p rest ih =>
    intro acc raw hblank hacc h
    obtain ⟨k, v⟩ := p
    have hrest : ∀ w, ("error", w) ∈ rest → w = Json.str "" :=
      fun w hw => hblank w (List.mem_cons_of_mem _ hw)
    by_cases c1 : k = "multicast_id"
    · subst c1
      have h2 : (match decodeIntField acc.multicastID v with
        | Except.error e => Except.error e
        | Except.ok n => rawResponseFields { acc with multicastID := n } rest) = Except.ok raw := h
      cases hd : decodeIntField acc.multicastID v with
      | error e => rw [hd] at h2; exact Except.noConfusion h2
      | ok n => rw [hd] at h2; exact ih { acc with multicastID := n } raw hrest hacc h2
    by_cases c2 : k = "success"
    · subst c2
      have h2 : (match decodeIntField acc.success v with
        | Except.error e => Except.error e
        | Except.ok n => rawResponseFields { acc with success := n } rest) = Except.ok raw := h
      cases hd : decodeIntField acc.success v with
      | error e => rw [hd] at h2; exact Except.noConfusion h2
      | ok n => rw [hd] at h2; exact ih { acc with success := n } raw hrest hacc h2
    by_cases c3 : k = "failure"
    · subst c3
      have h2 : (match decodeIntField acc.failure v with
        | Except.error e => Except.error e
        | Except.ok n => rawResponseFields { acc with failure := n } rest) = Except.ok raw := h
      cases hd : decodeIntField acc.failure v with
      | error e => rw [hd] at h2; exact Except.noConfusion h2
      | ok n => rw [hd] at h2; exact ih { acc with failure := n } raw hrest hacc h2
    by_cases c4 : k = "canonical_ids"
    · subst c4
      have h2 : (match decodeIntField acc.canonicalIDs v with
        | Except.error e => Except.error e
        | Except.ok n => rawResponseFields { acc with canonicalIDs := n } rest) = Except.ok raw := h
      cases hd : decodeIntField acc.canonicalIDs v with
      | error e => rw [hd] at h2; exact Except.noConfusion h2
      | ok n => rw [hd] at h2; exact ih { acc with canonicalIDs := n } raw hrest hacc h2
    by_cases c5 : k = "results"
    · subst c5
      have h2 : (match v with
        | Json.null => rawResponseFields acc rest
        | Json.arr xs =>
          match decodeResultList xs with
          | Except.error e => Except.error e
          | Except.ok rs => rawResponseFields { acc with results := some rs } rest
        | _ => Except.error (DecodeErr.typeMismatch "array")) = Except.ok raw := h
      cases v with
      | null => exact ih acc raw hrest hacc h2
      | arr xs =>
        have h3 : (match decodeResultList xs with
          | Except.error e => Except.error e
          | Except.ok rs => rawResponseFields { acc with results := some rs } rest) = Except.ok raw := h2
        cases hd : decodeResultList xs with
        | error e => rw [hd] at h3; exact Except.noConfusion h3
        | ok rs => rw [hd] at h3; exact ih { acc with results := some rs } raw hrest hacc h3
      | bool b => exact Except.noConfusion h2
      | num n => exact Except.noConfusion h2
      | str s => exact Except.noConfusion h2
      | obj kvs2 => exact Except.noConfusion h2
    by_cases c6 : k = "failed_registration_ids"
    · subst c6
      have h2 : (match v with
        | Json.null => rawResponseFields acc rest
        | Json.arr xs =>
          match decodeStringList xs with
          | Except.error e => Except.error e
          | Except.ok ss => rawResponseFields { acc with failedRegistrationIDs := some ss } rest
        | _ => Except.error (DecodeErr.typeMismatch "array")) = Except.ok raw := h
      cases v with
      | null => exact ih acc raw hrest hacc h2
      | arr xs =>
        have h3 : (match decodeStringList xs with
          | Except.error e => Except.error e
          | Except.ok ss => rawResponseFields { acc with failedRegistrationIDs := some ss } rest) = Except.ok raw := h2
        cases hd : decodeStringList xs with
        | error e => rw [hd] at h3; exact Except.noConfusion h3
        | ok ss => rw [hd] at h3; exact ih { acc with failedRegistrationIDs := some ss } raw hrest hacc h3
      | bool b => exact Except.noConfusion h2
      | num n => exact Except.noConfusion h2
      | str s => exact Except.noConfusion h2
      | obj kvs2 => exact Except.noConfusion h2
    by_cases c7 : k = "message_id"
    · subst c7
      have h2 : (match decodeIntField acc.messageID v with
        | Except.error e => Except.error e
        | Except.ok n => rawResponseFields { acc with messageID := n } rest) = Except.ok raw := h
      cases hd : decodeIntField acc.messageID v with
      | error e => rw [hd] at h2; exact Except.noConfusion h2
      | ok n => rw [hd] at h2; exact ih { acc with messageID := n } raw hrest hacc h2
    by_cases c8 : k = "error"
    · subst c8
      have hv : v = Json.str "" := hblank v (List.mem_cons_self _ _)
      subst hv
      have h2 : rawResponseFields { acc with error := "" } rest = Except.ok raw := h
      exact ih { acc with error := "" } raw hrest rfl h2
    · simp only [rawResponseFields] at h
      rw [if_neg c1, if_neg c2, if_neg c3, if_neg c4, if_neg c5, if_neg c6,
          if_neg c7, if_neg c8] at h
      exact ih acc raw hrest hacc h

/-- An object drawing its keys only from the topic group leaves every multicast field of the accumulator unchanged. -/
theorem rawResponseFields_only_topic :
    ∀ (kvs : List (String × Json)) (acc raw : RawResponse),
      (∀ kv ∈ kvs, topicKey kv.1 = true) →
      rawResponseFields acc kvs = Except.ok raw →
      raw.multicastID = acc.multicastID ∧ raw.success = acc.success ∧
      raw.failure = acc.failure ∧ raw.canonicalIDs = acc.canonicalIDs ∧
      raw.results = acc.results ∧ raw.failedRegistrationIDs = acc.failedRegistrationIDs := by
  intro kvs
  induction kvs with
  | nil =>
    intro acc raw _ h
    simp only [rawResponseFields] at h
    cases h
    exact ⟨rfl, rfl, rfl, rfl, rfl, rfl⟩
  | cons p rest ih =>
    intro acc raw hall h
    obtain ⟨k, v⟩ := p
    have hrest : ∀ kv ∈ rest, topicKey kv.1 = true :=
      fun kv hkv => hall kv (List.mem_cons_of_mem _ hkv)
    have hk : k = "message_id" ∨ k = "error" := by
      have hh := hall (k, v) (List.mem_cons_self _ _)
      simpa [topicKey] using hh
    rcases hk with hk | hk
    · subst hk
      have h2 : (match decodeIntField acc.messageID v with
        | Except.error e => Except.error e
        | Except.ok n => rawResponseFields { acc with messageID := n } rest) = Except.ok raw := h
      cases hd : decodeIntField acc.messageID v with
      | error e => rw [hd] at h2; exact Except.noConfusion h2
      | ok n => rw [hd] at h2; exact ih { acc with messageID := n } raw hrest h2
    · subst hk
      have h2 : (match decodeStringField acc.error v with
        | Except.error e => Except.error e
        | Except.ok s => rawResponseFields { acc with error := s } rest) = Except.ok raw := h
      cases hd : decodeStringField acc.error v with
      | error e => rw [hd] at h2; exact Except.noConfusion h2
      | ok s => rw [hd] at h2; exact ih { acc with error := s } raw hrest h2

/-- An object drawing its keys only from the multicast group leaves the message id and error fields of the accumulator unchanged. -/
theorem rawResponseFields_only_multicast :
    ∀ (kvs : List (String × Json)) (acc raw : RawResponse),
      (∀ kv ∈ kvs, multicastKey kv.1 = true) →
      rawResponseFields acc kvs = Except.ok raw →
      raw.messageID = acc.messageID ∧ raw.error = acc.error := by
  intro kvs
  induction kvs with
  | nil =>
    intro acc raw _ h
    simp only [rawResponseFields] at h
    cases h
    exact ⟨rfl, rfl⟩
  | cons p rest ih =>
    intro acc raw hall h
    obtain ⟨k, v⟩ := p
    have hrest : ∀ kv ∈ rest, multicastKey kv.1 = true :=
      fun kv hkv => hall kv (List.mem_cons_of_mem _ hkv)
    have hk : k = "multicast_id" ∨ k = "success" ∨ k = "failure" ∨ k = "canonical_ids" ∨
        k = "results" ∨ k = "failed_registration_ids" := by
      have hh := hall (k, v) (List.mem_cons_self _ _)
      simp [multicastKey] at hh
      tauto
    rcases hk with hk | hk | hk | hk | hk | hk
    · subst hk
      have h2 : (match decodeIntField acc.multicastID v with
        | Except.error e => Except.error e
        | Except.ok n => rawResponseFields { acc with multicastID := n } rest) = Except.ok raw := h
      cases hd : decodeIntField acc.multicastID v with
      | error e => rw [hd] at h2; exact Except.noConfusion h2
      | ok n => rw [hd] at h2; exact ih { acc with multicastID := n } raw hrest h2
    · subst hk
      have h2 : (match decodeIntField acc.success v with
        | Except.error e => Except.error e
        | Except.ok n => rawResponseFields { acc with success := n } rest) = Except.ok raw := h
      cases hd : decodeIntField acc.success v with
      | error e => rw [hd] at h2; exact Except.noConfusion h2
      | ok n => rw [hd] at h2; exact ih { acc with success := n } raw hrest h2
    · subst hk
      have h2 : (match decodeIntField acc.failure v with
        | Except.error e => Except.error e
        | Except.ok n => rawResponseFields { acc with failure := n } rest) = Except.ok raw := h
      cases hd : decodeIntField acc.failure v with
      | error e => rw [hd] at h2; exact Except.noConfusion h2
      | ok n => rw [hd] at h2; exact ih { acc with failure := n } raw hrest h2
    · subst hk
      have h2 : (match decodeIntField acc.canonicalIDs v with
        | Except.error e => Except.error e
        | Except.ok n => rawResponseFields { acc with canonicalIDs := n } rest) = Except.ok raw := h
      cases hd : decodeIntField acc.canonicalIDs v with
      | error e => rw [hd] at h2; exact Except.noConfusion h2
      | ok n => rw [hd] at h2; exact ih { acc with canonicalIDs := n } raw hrest h2
    · subst hk
      have h2 : (match v with
        | Json.null => rawResponseFields acc rest
        | Json.arr xs =>
          match decodeResultList xs with
          | Except.error e => Except.error e
          | Except.ok rs => rawResponseFields { acc with results := some rs } rest
        | _ => Except.error (DecodeErr.typeMismatch "array")) = Except.ok raw := h
      cases v with
      | null => exact ih acc raw hrest h2
      | arr xs =>
        have h3 : (match decodeResultList xs with
          | Except.error e => Except.error e
          | Except.ok rs => rawResponseFields { acc with results := some rs } rest) = Except.ok raw := h2
        cases hd : decodeResultList xs with
        | error e => rw [hd] at h3; exact Except.noConfusion h3
        | ok rs => rw [hd] at h3; exact ih { acc with results := some rs } raw hrest h3
      | bool b => exact Except.noConfusion h2
      | num n => exact Except.noConfusion h2
      | str s => exact Except.noConfusion h2
      | obj kvs2 => exact Except.noConfusion h2
    · subst hk
      have h2 : (match v with
        | Json.null => rawResponseFields acc rest
        | Json.arr xs =>
          match decodeStringList xs with
          | Except.error e => Except.error e
          | Except.ok ss => rawResponseFields { acc with failedRegistrationIDs := some ss } rest
        | _ => Except.error (DecodeErr.typeMismatch "array")) = Except.ok raw := h
      cases v with
      | null => exact ih acc raw hrest h2
      | arr xs =>
        have h3 : (match decodeStringList xs with
          | Except.error e => Except.error e
          | Except.ok ss => rawResponseFields { acc with failedRegistrationIDs := some ss } rest) = Except.ok raw := h2
        cases hd : decodeStringList xs with
        | error e => rw [hd] at h3; exact Except.noConfusion h3
        | ok ss => rw [hd] at h3; exact ih { acc with failedRegistrationIDs := some ss } raw hrest h3
      | bool b => exact Except.noConfusion h2
      | num n => exact Except.noConfusion h2
      | str s => exact Except.noConfusion h2
      | obj kvs2 => exact Except.noConfusion h2

/-- Decoding a string-or-null value into a string field succeeds. -/
theorem decodeStringField_ok (cur : String) (v : Json) (h : strOrNull v = true) :
    ∃ s, decodeStringField cur v = Except.ok s := by
  cases v <;> simp_all [strOrNull, decodeStringField]

/-- Decoding an in-range-number-or-null value into an int field succeeds. -/
theorem decodeIntField_ok (cur : Int) (v : Json) (h : intOrNull v = true) :
    ∃ n, decodeIntField cur v = Except.ok n := by
  cases v <;> simp_all [intOrNull, decodeIntField]

/-- Decoding a string-or-null slice element succeeds. -/
theorem decodeStringElem_ok (v : Json) (h : strOrNull v = true) :
    ∃ s, decodeStringElem v = Except.ok s := by
  cases v <;> simp_all [strOrNull, decodeStringElem]

/-- Element-wise decoding of an array of string-or-null values succeeds. -/
theorem decodeStringList_ok :
    ∀ xs : List Json, xs.all strOrNull = true →
      ∃ ss, decodeStringList xs = Except.ok ss := by
  intro xs
  induction xs with
  | nil => exact fun _ => ⟨[], rfl⟩
  | cons x xs ih =>
    intro h
    rw [List.all_cons, Bool.and_eq_true] at h
    obtain ⟨s, hs⟩ := decodeStringElem_ok x h.1
    obtain ⟨ss, hss⟩ := ih h.2
    exact ⟨s :: ss, by simp [decodeStringList, hs, hss]⟩

/-- Decoding the fields of a well-typed result object never fails. -/
theorem rawResultFields_ok :
    ∀ (kvs : List (String × Json)) (acc : RawResult),
      kvs.all wellTypedResultField = true →
      ∃ raw, rawResultFields acc kvs = Except.ok raw := by
  intro kvs
  induction kvs with
  | nil => exact fun acc _ => ⟨acc, rfl⟩
  | cons p rest ih =>
    intro acc hall
    obtain ⟨k, v⟩ := p
    rw [List.all_cons, Bool.and_eq_true] at hall
    obtain ⟨hkv, hrest⟩ := hall
    by_cases c1 : k = "message_id"
    · have hv : strOrNull v = true := by simpa [wellTypedResultField, c1] using hkv
      obtain ⟨s, hs⟩ := decodeStringField_ok acc.messageID v hv
      obtain ⟨raw, hraw⟩ := ih { acc with messageID := s } hrest
      exact ⟨raw, by simp [rawResultFields, c1, hs, hraw]⟩
    by_cases c2 : k = "registration_id"
    · have hv : strOrNull v = true := by simpa [wellTypedResultField, c1, c2] using hkv
      obtain ⟨s, hs⟩ := decodeStringField_ok acc.registrationID v hv
      obtain ⟨raw, hraw⟩ := ih { acc with registrationID := s } hrest
      exact ⟨raw, by simp [rawResultFields, c1, c2, hs, hraw]⟩
    by_cases c3 : k = "error"
    · have hv : strOrNull v = true := by simpa [wellTypedResultField, c1, c2, c3] using hkv
      obtain ⟨s, hs⟩ := decodeStringField_ok acc.error v hv
      obtain ⟨raw, hraw⟩ := ih { acc with error := s } hrest
      exact ⟨raw, by simp [rawResultFields, c1, c2, c3, hs, hraw]⟩
    · obtain ⟨raw, hraw⟩ := ih acc hrest
      exact ⟨raw, by simp [rawResultFields, c1, c2, c3, hraw]⟩

/-- Decoding a well-typed result value never fails. -/
theorem decodeResult_ok (j : Json) (h : wellTypedResult j = true) :
    ∃ r, decodeResult j = Except.ok r := by
  cases j with
  | null => exact ⟨Result.zero, rfl⟩
  | obj kvs =>
    obtain ⟨raw, hraw⟩ := rawResultFields_ok kvs ⟨"", "", ""⟩
      (by simpa [wellTypedResult] using h)
    have hd : decodeRawResult (Json.obj kvs) = Except.ok raw := hraw
    refine ⟨{ messageID := raw.messageID, registrationID := raw.registrationID,
              error := if raw.error ≠ "" then some (classifyError raw.error)
                       else Result.zero.error }, ?_⟩
    unfold decodeResult resultUnmarshalJSON
    rw [hd]
  | bool b => simp [wellTypedResult] at h
  | num n => simp [wellTypedResult] at h
  | str s => simp [wellTypedResult] at h
  | arr xs => simp [wellTypedResult] at h

/-- Element-wise decoding of an array of well-typed result values never fails. -/
theorem decodeResultList_ok :
    ∀ xs : List Json, xs.all wellTypedResult = true →
      ∃ rs, decodeResultList xs = Except.ok rs := by
  intro xs
  induction xs with
  | nil => exact fun _ => ⟨[], rfl⟩
  | cons x xs ih =>
    intro h
    rw [List.all_cons, Bool.and_eq_true] at h
    obtain ⟨r, hr⟩ := decodeResult_ok x h.1
    obtain ⟨rs, hrs⟩ := ih h.2
    exact ⟨r :: rs, by simp [decodeResultList, hr, hrs]⟩

/-- Decoding the fields of a well-typed response object never fails. -/
theorem rawResponseFields_ok :
    ∀ (kvs : List (String × Json)) (acc : RawResponse),
      kvs.all wellTypedResponseField = true →
      ∃ raw, rawResponseFields acc kvs = Except.ok raw := by
  intro kvs
  induction kvs with
  | nil => exact fun acc _ => ⟨acc, rfl⟩
  | cons p rest ih =>
    intro acc hall
    obtain ⟨k, v⟩ := p
    rw [List.all_cons, Bool.and_eq_true] at hall
    obtain ⟨hkv, hrest⟩ := hall
    by_cases c1 : k = "multicast_id"
    · have hv : intOrNull v = true := by simpa [wellTypedResponseField, c1] using hkv
      obtain ⟨n, hn⟩ := decodeIntField_ok acc.multicastID v hv
      obtain ⟨raw, hraw⟩ := ih { acc with multicastID := n } hrest
      exact ⟨raw, by simp [rawResponseFields, c1, hn, hraw]⟩
    by_cases c2 : k = "success"
    · have hv : intOrNull v = true := by simpa [wellTypedResponseField, c1, c2] using hkv
      obtain ⟨n, hn⟩ := decodeIntField_ok acc.success v hv
      obtain ⟨raw, hraw⟩ := ih { acc with success := n } hrest
      exact ⟨raw, by simp [rawResponseFields, c1, c2, hn, hraw]⟩
    by_cases c3 : k = "failure"
    · have hv : intOrNull v = true := by simpa [wellTypedResponseField, c1, c2, c3] using hkv
      obtain ⟨n, hn⟩ := decodeIntField_ok acc.failure v hv
      obtain ⟨raw, hraw⟩ := ih { acc with failure := n } hrest
      exact ⟨raw, by simp [rawResponseFields, c1, c2, c3, hn, hraw]⟩
    by_cases c4 : k = "canonical_ids"
    · have hv : intOrNull v = true := by simpa [wellTypedResponseField, c1, c2, c3, c4] using hkv
      obtain ⟨n, hn⟩ := decodeIntField_ok acc.canonicalIDs v hv
      obtain ⟨raw, hraw⟩ := ih { acc with canonicalIDs := n } hrest
      exact ⟨raw, by simp [rawResponseFields, c1, c2, c3, c4, hn, hraw]⟩
    by_cases c5 : k = "results"
    · subst c5
      cases v with
      | null =>
        obtain ⟨raw, hraw⟩ := ih acc hrest
        exact ⟨raw, hraw⟩
      | arr xs =>
        have hxs : xs.all wellTypedResult = true := hkv
        obtain ⟨rs, hrs⟩ := decodeResultList_ok xs hxs
        obtain ⟨raw, hraw⟩ := ih { acc with results := some rs } hrest
        refine ⟨raw, ?_⟩
        have h2 : (match decodeResultList xs with
          | Except.error e => Except.error e
          | Except.ok rs2 => rawResponseFields { acc with results := some rs2 } rest) =
            Except.ok raw := by
          rw [hrs]; exact hraw
        exact h2
      | bool b => exact Bool.noConfusion hkv
      | num n => exact Bool.noConfusion hkv
      | str s => exact Bool.noConfusion hkv
      | obj kvs2 => exact Bool.noConfusion hkv
    by_cases c6 : k = "failed_registration_ids"
    · subst c6
      cases v with
      | null =>
        obtain ⟨raw, hraw⟩ := ih acc hrest
        exact ⟨raw, hraw⟩
      | arr xs =>
        have hxs : xs.all strOrNull = true := hkv
        obtain ⟨ss, hss⟩ := decodeStringList_ok xs hxs
        obtain ⟨raw, hraw⟩ := ih { acc with failedRegistrationIDs := some ss } hrest
        refine ⟨raw, ?_⟩
        have h2 : (match decodeStringList xs with
          | Except.error e => Except.error e
          | Except.ok ss2 => rawResponseFields { acc with failedRegistrationIDs := some ss2 } rest) =
            Except.ok raw := by
          rw [hss]; exact hraw
        exact h2
      | bool b => exact Bool.noConfusion hkv
      | num n => exact Bool.noConfusion hkv
      | str s => exact Bool.noConfusion hkv
      | obj kvs2 => exact Bool.noConfusion hkv
    by_cases c7 : k = "message_id"
    · have hv : intOrNull v = true := by
        simpa [wellTypedResponseField, c1, c2, c3, c4, c5, c6, c7] using hkv
      obtain ⟨n, hn⟩ := decodeIntField_ok acc.messageID v hv
      obtain ⟨raw, hraw⟩ := ih { acc with messageID := n } hrest
      exact ⟨raw, by simp [rawResponseFields, c1, c2, c3, c4, c5, c6, c7, hn, hraw]⟩
    by_cases c8 : k = "error"
    · have hv : strOrNull v = true := by
        simpa [wellTypedResponseField, c1, c2, c3, c4, c5, c6, c7, c8] using hkv
      obtain ⟨s, hs⟩ := decodeStringField_ok acc.error v hv
      obtain ⟨raw, hraw⟩ := ih { acc with error := s } hrest
      exact ⟨raw, by simp [rawResponseFields, c1, c2, c3, c4, c5, c6, c7, c8, hs, hraw]⟩
    · obtain ⟨raw, hraw⟩ := ih acc hrest
      exact ⟨raw, by simp [rawResponseFields, c1, c2, c3, c4, c5, c6, c7, c8, hraw]⟩

/-- C1: each of the fourteen known error-code strings classifies to its corresponding error kind, and every non-empty string bound in no entry of the table classifies to the catch-all Unknown kind; classification is a total function and never fails. -/
theorem classify_known_codes_and_unknown (s : String) (_hne : s ≠ "") (hs : ∀ k, (s, k) ∉ errMap) :
    classifyError "MissingRegistration" = FcmError.missingRegistration ∧
    classifyError "InvalidRegistration" = FcmError.invalidRegistration ∧
    classifyError "NotRegistered" = FcmError.notRegistered ∧
    classifyError "InvalidPackageName" = FcmError.invalidPackageName ∧
    classifyError "MismatchSenderId" = FcmError.mismatchSenderID ∧
    classifyError "MessageTooBig" = FcmError.messageTooBig ∧
    classifyError "InvalidDataKey" = FcmError.invalidDataKey ∧
    classifyError "InvalidTtl" = FcmError.invalidTTL ∧
    classifyError "Unavailable" = FcmError.unavailable ∧
    classifyError "InternalServerError" = FcmError.internalServerError ∧
    classifyError "DeviceMessageRateExceeded" = FcmError.deviceMessageRateExceeded ∧
    classifyError "TopicsMessageRateExceeded" = FcmError.topicsMessageRateExceeded ∧
    classifyError "InvalidParameters" = FcmError.invalidParameters ∧
    classifyError "InvalidApnsCredential" = FcmError.invalidApnsCredential ∧
    classifyError s = FcmError.unknown := by
  refine ⟨rfl, rfl, rfl, rfl, rfl, rfl, rfl, rfl, rfl, rfl, rfl, rfl, rfl, rfl, ?_⟩
  unfold classifyError
  rw [lookup_eq_none_of_not_key s errMap hs]

/-- Witness for C1 at the concrete unrecognized code SomeNewCode. -/
theorem classify_known_codes_and_unknown_witness :
    ("SomeNewCode" : String) ≠ "" ∧ classifyError "SomeNewCode" = FcmError.unknown := by
  refine ⟨by decide, (classify_known_codes_and_unknown "SomeNewCode" (by decide) (by intro k hk; simp [errMap] at hk)).2.2.2.2.2.2.2.2.2.2.2.2.2.2⟩

/-- C2: the unregistered predicate holds exactly when the stored error is one of NotRegistered, MismatchSenderId, MissingRegistration, InvalidRegistration; it is false for every other kind, for Unknown, and when no error is present. -/
theorem unregistered_iff_four_kinds (r : Result) :
    r.unregistered = true ↔
      (r.error = some FcmError.notRegistered ∨ r.error = some FcmError.mismatchSenderID ∨
       r.error = some FcmError.missingRegistration ∨ r.error = some FcmError.invalidRegistration) := by
  obtain ⟨m, g, e⟩ := r
  cases e with
  | none => simp [Result.unregistered]
  | some k => cases k <;> simp [Result.unregistered]

/-- C3: the kind classified from Unavailable is temporary and timeout-like, the kind classified from InternalServerError is temporary but not timeout-like, and every other kind carries neither flag. -/
theorem retry_metadata_flags :
    errTemporary (classifyError "Unavailable") = true ∧
    errTimeout (classifyError "Unavailable") = true ∧
    errTemporary (classifyError "InternalServerError") = true ∧
    errTimeout (classifyError "InternalServerError") = false ∧
    ∀ k : FcmError, k ≠ FcmError.unavailable → k ≠ FcmError.internalServerError →
      errTemporary k = false ∧ errTimeout k = false := by
  refine ⟨rfl, rfl, rfl, rfl, ?_⟩
  intro k h1 h2
  cases k <;> simp_all [errTemporary, errTimeout]

/-- Witness for C3 at the concrete kind MessageTooBig. -/
theorem retry_metadata_flags_witness :
    (FcmError.messageTooBig ≠ FcmError.unavailable) ∧
    errTemporary FcmError.messageTooBig = false ∧ errTimeout FcmError.messageTooBig = false := by
  refine ⟨by decide, ?_⟩
  exact retry_metadata_flags.2.2.2.2 FcmError.messageTooBig (by decide) (by decide)

/-- C4: decoding a payload whose results field is an N-element array of decodable result objects succeeds and yields exactly N results, in input order, the i-th output being the decoding of the i-th input element. -/
theorem results_decoding_preserves_order (xs : List Json) (rs : List Result)
    (h : decodeResultList xs = Except.ok rs) :
    (responseUnmarshalJSON Response.zero (Json.obj [("results", Json.arr xs)])).2 = none ∧
    (responseUnmarshalJSON Response.zero (Json.obj [("results", Json.arr xs)])).1.results = some rs ∧
    rs.length = xs.length ∧
    ∀ i (h1 : i < xs.length) (h2 : i < rs.length),
      decodeResult (xs.get ⟨i, h1⟩) = Except.ok (rs.get ⟨i, h2⟩) := by
  obtain ⟨hlen, hget⟩ := decodeResultList_pointwise xs rs h
  refine ⟨?_, ?_, hlen, hget⟩ <;>
    simp [responseUnmarshalJSON, decodeRawResponse, rawResponseFields, h]

/-- Witness for C4 on a concrete two-element results array. -/
theorem results_decoding_preserves_order_witness :
    decodeResultList [Json.obj [("error", Json.str "NotRegistered")], Json.obj []] =
      Except.ok [{ messageID := "", registrationID := "", error := some FcmError.notRegistered },
                 { messageID := "", registrationID := "", error := none }] ∧
    (responseUnmarshalJSON Response.zero (Json.obj [("results",
       Json.arr [Json.obj [("error", Json.str "NotRegistered")], Json.obj []])])).1.results =
      some [{ messageID := "", registrationID := "", error := some FcmError.notRegistered },
            { messageID := "", registrationID := "", error := none }] := by
  exact ⟨rfl, (results_decoding_preserves_order
    [Json.obj [("error", Json.str "NotRegistered")], Json.obj []]
    [{ messageID := "", registrationID := "", error := some FcmError.notRegistered },
     { messageID := "", registrationID := "", error := none }] rfl).2.1⟩

/-- C5: when every error entry of the payload object is the empty string (in particular when the error key is absent), the decoded Result and Response carry no error value at all, distinguishable from every classified kind including Unknown. -/
theorem error_absent_or_empty_leaves_error_unset (kvs1 kvs2 : List (String × Json))
    (h1 : ∀ v, ("error", v) ∈ kvs1 → v = Json.str "")
    (h2 : ∀ v, ("error", v) ∈ kvs2 → v = Json.str "") :
    (resultUnmarshalJSON Result.zero (Json.obj kvs1)).1.error = none ∧
    (responseUnmarshalJSON Response.zero (Json.obj kvs2)).1.error = none ∧
    (∀ k : FcmError, (resultUnmarshalJSON Result.zero (Json.obj kvs1)).1.error ≠ some k) ∧
    (∀ k : FcmError, (responseUnmarshalJSON Response.zero (Json.obj kvs2)).1.error ≠ some k) := by
  have hr : (resultUnmarshalJSON Result.zero (Json.obj kvs1)).1.error = none := by
    cases hd : decodeRawResult (Json.obj kvs1) with
    | error e => simp [resultUnmarshalJSON, hd, Result.zero]
    | ok raw =>
      have hblank : raw.error = "" := rawResultFields_error_blank kvs1 ⟨"", "", ""⟩ raw h1 rfl hd
      simp [resultUnmarshalJSON, hd, hblank, Result.zero]
  have hq : (responseUnmarshalJSON Response.zero (Json.obj kvs2)).1.error = none := by
    cases hd : decodeRawResponse (Json.obj kvs2) with
    | error e => simp [responseUnmarshalJSON, hd, Response.zero]
    | ok raw =>
      have hblank : raw.error = "" :=
        rawResponseFields_error_blank kvs2 RawResponse.zero raw h2 rfl hd
      simp [responseUnmarshalJSON, hd, hblank, Response.zero]
  exact ⟨hr, hq, fun k => by simp [hr], fun k => by simp [hq]⟩

/-- Witness for C5: an object without an error key and an object with an empty error string both decode with the error unset. -/
theorem error_absent_or_empty_leaves_error_unset_witness :
    (resultUnmarshalJSON Result.zero (Json.obj [("message_id", Json.str "1:abc")])).1.error = none ∧
    (responseUnmarshalJSON Response.zero (Json.obj [("error", Json.str "")])).1.error = none := by
  have h := error_absent_or_empty_leaves_error_unset
    [("message_id", Json.str "1:abc")] [("error", Json.str "")]
    (by intro v hv; simp at hv) (by intro v hv; simp at hv; exact hv)
  exact ⟨h.1, h.2.1⟩

/-- C6: decoding never fails on a payload whose fields all carry the expected JSON types, regardless of business-rule violations; concretely, a payload whose success count disagrees with the results length and whose single result carries both a message id and an error decodes successfully. -/
theorem decode_fails_only_on_type_mismatch (r : Response) (j : Json)
    (h : wellTypedResponse j = true) :
    (responseUnmarshalJSON r j).2 = none ∧
    responseUnmarshalJSON Response.zero
      (Json.obj [("success", Json.num 3),
                 ("results", Json.arr [Json.obj [("message_id", Json.str "m1"),
                                                 ("error", Json.str "MessageTooBig")]])]) =
      ({ multicastID := 0, success := 3, failure := 0, canonicalIDs := 0,
         results := some [{ messageID := "m1", registrationID := "",
                            error := some FcmError.messageTooBig }],
         failedRegistrationIDs := none, messageID := 0, error := none }, none) := by
  constructor
  · cases j with
    | null => rfl
    | obj kvs =>
      obtain ⟨raw, hraw⟩ := rawResponseFields_ok kvs RawResponse.zero
        (by simpa [wellTypedResponse] using h)
      simp [responseUnmarshalJSON, decodeRawResponse, hraw]
    | bool b => simp [wellTypedResponse] at h
    | num n => simp [wellTypedResponse] at h
    | str s => simp [wellTypedResponse] at h
    | arr xs => simp [wellTypedResponse] at h
  · rfl

/-- Witness for C6 on a concrete well-typed payload with success count 2 over a two-element results array. -/
theorem decode_fails_only_on_type_mismatch_witness :
    wellTypedResponse (Json.obj [("success", Json.num 2), ("failure", Json.num 0),
      ("results", Json.arr [Json.obj [("message_id", Json.str "a")], Json.obj []])]) = true ∧
    (responseUnmarshalJSON Response.zero
      (Json.obj [("success", Json.num 2), ("failure", Json.num 0),
        ("results", Json.arr [Json.obj [("message_id", Json.str "a")], Json.obj []])])).2 = none := by
  refine ⟨by decide, ?_⟩
  exact (decode_fails_only_on_type_mismatch Response.zero _ (by decide)).1

/-- C7: whenever decoding reports an error, the target Response or Result is returned exactly as it was, with none of its fields assigned from the failing input. -/
theorem decode_error_produces_no_partial_value (r : Response) (s : Result) (j1 j2 : Json)
    (h1 : (responseUnmarshalJSON r j1).2 ≠ none)
    (h2 : (resultUnmarshalJSON s j2).2 ≠ none) :
    (responseUnmarshalJSON r j1).1 = r ∧ (resultUnmarshalJSON s j2).1 = s := by
  constructor
  · unfold responseUnmarshalJSON at *
    cases hd : decodeRawResponse j1 with
    | error e => simp [hd]
    | ok raw => simp [hd] at h1
  · unfold resultUnmarshalJSON at *
    cases hd : decodeRawResult j2 with
    | error e => simp [hd]
    | ok raw => simp [hd] at h2

/-- Witness for C7: failing inputs leave concrete non-zero targets unchanged. -/
theorem decode_error_produces_no_partial_value_witness :
    (responseUnmarshalJSON { Response.zero with success := 7 } (Json.str "garbage")).2 ≠ none ∧
    (resultUnmarshalJSON { Result.zero with messageID := "m" } (Json.num 3)).2 ≠ none ∧
    (responseUnmarshalJSON { Response.zero with success := 7 } (Json.str "garbage")).1 =
      { Response.zero with success := 7 } ∧
    (resultUnmarshalJSON { Result.zero with messageID := "m" } (Json.num 3)).1 =
      { Result.zero with messageID := "m" } := by
  refine ⟨by decide, by decide, ?_⟩
  exact decode_error_produces_no_partial_value _ _ _ _ (by decide) (by decide)

/-- C8 counterexample: a payload carrying both multicast and topic keys decodes successfully into a Response with both field groups populated, so the two groups are not mutually exclusive in the decoded value. -/
theorem mixed_payload_populates_both_groups :
    (responseUnmarshalJSON Response.zero
       (Json.obj [("multicast_id", Json.num 7), ("message_id", Json.num 9),
                  ("error", Json.str "Unavailable")])).2 = none ∧
    multicastPopulated (responseUnmarshalJSON Response.zero
       (Json.obj [("multicast_id", Json.num 7), ("message_id", Json.num 9),
                  ("error", Json.str "Unavailable")])).1 = true ∧
    topicPopulated (responseUnmarshalJSON Response.zero
       (Json.obj [("multicast_id", Json.num 7), ("message_id", Json.num 9),
                  ("error", Json.str "Unavailable")])).1 = true := by
  exact ⟨by decide, by decide, by decide⟩

/-- C8 amended: which field group is populated is determined entirely by which JSON keys appear; a payload drawing keys only from the multicast group leaves the topic fields unpopulated and vice versa, while the decoder itself never enforces exclusivity. -/
theorem populated_groups_determined_by_keys (kvs1 kvs2 : List (String × Json))
    (h1 : ∀ kv ∈ kvs1, multicastKey kv.1 = true)
    (h2 : ∀ kv ∈ kvs2, topicKey kv.1 = true) :
    topicPopulated (responseUnmarshalJSON Response.zero (Json.obj kvs1)).1 = false ∧
    multicastPopulated (responseUnmarshalJSON Response.zero (Json.obj kvs2)).1 = false := by
  constructor
  · cases hd : decodeRawResponse (Json.obj kvs1) with
    | error e => simp [responseUnmarshalJSON, hd, topicPopulated, Response.zero]
    | ok raw =>
      obtain ⟨hm, he⟩ := rawResponseFields_only_multicast kvs1 RawResponse.zero raw h1 hd
      simp [responseUnmarshalJSON, hd, topicPopulated, hm, he, RawResponse.zero, Response.zero]
  · cases hd : decodeRawResponse (Json.obj kvs2) with
    | error e => simp [responseUnmarshalJSON, hd, multicastPopulated, Response.zero]
    | ok raw =>
      obtain ⟨q1, q2, q3, q4, q5, q6⟩ := rawResponseFields_only_topic kvs2 RawResponse.zero raw h2 hd
      simp [responseUnmarshalJSON, hd, multicastPopulated, q1, q2, q3, q4, q5, q6,
            RawResponse.zero, Response.zero]

/-- Witness for C8 as amended, on concrete single-group payloads. -/
theorem populated_groups_determined_by_keys_witness :
    topicPopulated (responseUnmarshalJSON Response.zero
      (Json.obj [("multicast_id", Json.num 5)])).1 = false ∧
    multicastPopulated (responseUnmarshalJSON Response.zero
      (Json.obj [("message_id", Json.num 9)])).1 = false := by
  exact populated_groups_determined_by_keys
    [("multicast_id", Json.num 5)] [("message_id", Json.num 9)] (by decide) (by decide)

/-- C9: the topic-shape payload with message id 42 and error code InvalidParameters decodes to a Response with message id 42, top-level error kind InvalidParameters, and no results populated. -/
theorem topic_payload_example :
    responseUnmarshalJSON Response.zero
      (Json.obj [("message_id", Json.num 42), ("error", Json.str "InvalidParameters")]) =
    ({ multicastID := 0, success := 0, failure := 0, canonicalIDs := 0, results := none,
       failedRegistrationIDs := none, messageID := 42,
       error := some FcmError.invalidParameters }, none) := by
  rfl

/-- C10: the empty JSON object decodes to the all-zero Response with results, failed registration ids and error unset, and an explicitly supplied zero for any optional numeric field decodes to the identical Response. -/
theorem empty_object_and_explicit_zero_decode :
    responseUnmarshalJSON Response.zero (Json.obj []) =
      ({ multicastID := 0, success := 0, failure := 0, canonicalIDs := 0, results := none,
         failedRegistrationIDs := none, messageID := 0, error := none }, none) ∧
    responseUnmarshalJSON Response.zero (Json.obj [("multicast_id", Json.num 0)]) =
      responseUnmarshalJSON Response.zero (Json.obj []) ∧
    responseUnmarshalJSON Response.zero (Json.obj [("success", Json.num 0)]) =
      responseUnmarshalJSON Response.zero (Json.obj []) ∧
    responseUnmarshalJSON Response.zero (Json.obj [("failure", Json.num 0)]) =
      responseUnmarshalJSON Response.zero (Json.obj []) ∧
    responseUnmarshalJSON Response.zero (Json.obj [("canonical_ids", Json.num 0)]) =
      responseUnmarshalJSON Response.zero (Json.obj []) ∧
    responseUnmarshalJSON Response.zero (Json.obj [("message_id", Json.num 0)]) =
      responseUnmarshalJSON Response.zero (Json.obj []) := by
  exact ⟨rfl, rfl, rfl, rfl, rfl, rfl⟩

end Fcm
